import Mathlib

/-!
Verification of the run-command-handler-linux core against its specification.

The definitions below are a shallow embedding of the Go source:

* `pkg/download` (`WithRetries`, `isTransientHttpStatusCode`,
  `isAccessIssueHttpStatusCode`, the `expRetry*` constants),
* `internal/commands` (`checkAndSaveSeqNum`, `appendToBlob`,
  `createOrReplaceAppendBlob` and the blob-setup stage of `enable`),
* `internal/status` (`saveStatusReport`, `getRootStatusJson`).

Effectful Go code is embedded by making the external world explicit:
a download strategy is the sequence of outcomes its attempts produce,
the filesystem is a finite map from paths to contents, and the results
of remote calls (blob append, credential creation) are boolean inputs.
Durations are modelled in seconds as naturals.
-/

namespace RunCommandHandler

/-! ## Download engine (pkg/download)

`Download(ctx, d)` returns `(status, body, err)` for one attempt.  The
`Download` function itself is not part of the sources under study (only its
callers and tests are).  Modelled from the spec: an attempt either yields a
readable body with no error (HTTP 200), or an error together with the HTTP
status code that caused it, where status `-1` stands for a request-build or
request-level transport failure in which no HTTP status was obtained.
A strategy (`Downloader`) is embedded as the function from the attempt
index (how many times this strategy was already called in this run) to
the outcome of that attempt. -/

inductive AttemptOutcome where
  | ok (body : String)
  | err (status : Int) (msg : String)
deriving DecidableEq

def Downloader : Type := Nat → AttemptOutcome

/-- Source: `expRetryN = 3` — how many times we retry the Download. -/
def expRetryN : Nat := 3

/-- Source: `expRetryK = time.Second * 3`, in seconds. -/
def expRetryK : Nat := 3

/-- Source: `expRetryM = 2`. -/
def expRetryM : Nat := 2

/-- Source: `isTransientHttpStatusCode` (408, 429, 500, 502, 503, 504). -/
def isTransientHttpStatusCode (statusCode : Int) : Bool :=
  statusCode == 408 || statusCode == 429 || statusCode == 500 ||
  statusCode == 502 || statusCode == 503 || statusCode == 504

/-- Source: `isAccessIssueHttpStatusCode` (401, 403, 404, 409). -/
def isAccessIssueHttpStatusCode (statusCode : Int) : Bool :=
  statusCode == 401 || statusCode == 403 || statusCode == 404 || statusCode == 409

/-- Source: the message built by
`errors.Wrapf(downloadErrors, fmt.Sprintf("Attempt %d: %s ", n+1, err.Error()))`,
where `n` is the zero-based attempt index of the current strategy. -/
def attemptErrorMessage (n : Nat) (msg : String) : String :=
  "Attempt " ++ toString (n + 1) ++ ": " ++ msg ++ " "

/-- Source: the `downloadErrors` accumulation in `WithRetries`.  The chain of
a `pkg/errors` wrapped error is embedded as the list of its messages,
outermost first: the first error of a run is stored as is, every later
failure wraps the existing aggregate with its `Attempt n:` message. -/
def wrapDownloadErrors (errs : List String) (n : Nat) (msg : String) : List String :=
  match errs with
  | [] => [msg]
  | _ :: _ => attemptErrorMessage n msg :: errs

/-- The observable result of one `WithRetries` run: the returned body,
the returned error (as its message chain, `none` for a nil error), the
sequence of durations passed to the sleep function (in seconds), and how
many times each reached strategy was called, in strategy order. -/
structure RetryResult where
  body : Option String
  error : Option (List String)
  sleeps : List Nat
  calls : List Nat
deriving DecidableEq

/-- Source: the inner `for n := 0; n < expRetryN; n++` loop of `WithRetries`
for a single strategy `d`, embedded with `fuel` many iterations left.
Returns the body on success, the accumulated error chain, the recorded
sleep durations and how many times `d` was called. -/
def retryLoop (d : Downloader) (n fuel : Nat) (errs : List String)
    (sleeps : List Nat) (calls : Nat) :
    Option String × List String × List Nat × Nat :=
  match fuel with
  | 0 => (none, errs, sleeps, calls)
  | fuel + 1 =>
    match d n with
    | .ok body => (some body, errs, sleeps, calls + 1)
    | .err status msg =>
      let errs := wrapDownloadErrors errs n msg
      if isAccessIssueHttpStatusCode status then
        (none, errs, sleeps, calls + 1)
      else if status != -1 && !isTransientHttpStatusCode status then
        (none, errs, sleeps, calls + 1)
      else if n ≠ expRetryN - 1 then
        retryLoop d (n + 1) fuel errs (sleeps ++ [expRetryK * expRetryM ^ n]) (calls + 1)
      else
        retryLoop d (n + 1) fuel errs sleeps (calls + 1)

/-- Source: the outer `for _, d := range downloaders` loop of `WithRetries`,
threading the accumulated errors and sleeps through the strategies. -/
def WithRetriesAux : List Downloader → List String → List Nat → List Nat → RetryResult
  | [], errs, sleeps, calls =>
    { body := none
      error := match errs with | [] => none | _ :: _ => some errs
      sleeps := sleeps
      calls := calls }
  | d :: ds, errs, sleeps, calls =>
    match retryLoop d 0 expRetryN errs sleeps 0 with
    | (some body, _, sleeps2, n) =>
      { body := some body, error := none, sleeps := sleeps2, calls := calls ++ [n] }
    | (none, errs2, sleeps2, n) =>
      WithRetriesAux ds errs2 sleeps2 (calls ++ [n])

/-- Source: `WithRetries(ctx, downloaders, sf)` of pkg/download. -/
def WithRetries (downloaders : List Downloader) : RetryResult :=
  WithRetriesAux downloaders [] [] []

/-! Concrete strategies used as counterexamples and witnesses. -/

/-- A strategy whose every attempt fails without producing an HTTP status
(`status = -1`), like the `badDownloader` of the source's tests, whose
`GetRequest` always returns the error `"expected error"`. -/
def noStatusDownloader : Downloader := fun _ => .err (-1) "expected error"

/-- A strategy that always yields HTTP 404. -/
def alwaysNotFoundDownloader : Downloader := fun _ => .err 404 "a"

/-- A strategy that always yields HTTP 429, with messages b, c, d. -/
def alwaysThrottledDownloader : Downloader := fun n => .err 429 (["b", "c", "d"].getD n "x")

/-- A strategy yielding 429 on its first two attempts and 200 afterwards. -/
def healingDownloader : Downloader := fun n =>
  if n < 2 then .err 429 ("m" ++ toString n) else .ok "BODY"

/-- A strategy that always yields HTTP 200. -/
def alwaysOkDownloader : Downloader := fun _ => .ok "payload"

/-- The chronological failure record of the inner retry loop for one
strategy: the body in case an attempt succeeds, and the list of failed
attempts as pairs of the attempt index and the raw error message, in the
order the attempts happen.  Companion of `retryLoop`, following the same
branches of the source loop while recording what each failing attempt
contributes to `downloadErrors`. -/
def retryLoopFailures (d : Downloader) (n fuel : Nat) :
    Option String × List (Nat × String) :=
  match fuel with
  | 0 => (none, [])
  | fuel + 1 =>
    match d n with
    | .ok body => (some body, [])
    | .err status msg =>
      if isAccessIssueHttpStatusCode status then (none, [(n, msg)])
      else if status != -1 && !isTransientHttpStatusCode status then (none, [(n, msg)])
      else
        let r := retryLoopFailures d (n + 1) fuel
        (r.1, (n, msg) :: r.2)

/-- The chronological list of all failed attempts of a `WithRetries` run
over the whole strategy list, in the order they happen (meaningful for the
runs in which no strategy succeeds). -/
def runFailures : List Downloader → List (Nat × String)
  | [] => []
  | d :: ds =>
    match retryLoopFailures d 0 expRetryN with
    | (some _, _) => []
    | (none, fs) => fs ++ runFailures ds

/-! ## Sequence guard (internal/commands.checkAndSaveSeqNum) -/

/-- Modelled from the spec: `pkg/seqnumutil.IsSmallerThan` is not among the
sources studied here.  Per the spec, the persisted version is read from the
marker file, absence is treated as "no prior version" (the candidate is
always accepted), and otherwise the persisted value must be strictly
smaller than the candidate.  The marker contents are `none` when the file
is absent; I/O error paths are not modelled. -/
def IsSmallerThan (marker : Option Int) (seq : Int) : Bool :=
  match marker with
  | none => true
  | some v => v < seq

/-- Modelled from the spec: `pkg/seqnumutil.SaveSeqNum` overwrites the
marker with the given sequence number. -/
def SaveSeqNum (seq : Int) : Option Int := some seq

/-- Source: `checkAndSaveSeqNum(ctx, seq, mrseqPath)` of internal/commands.
Returns `shouldExit` together with the marker contents after the call. -/
def checkAndSaveSeqNum (seq : Int) (marker : Option Int) : Bool × Option Int :=
  let smaller := IsSmallerThan marker seq
  if !smaller then
    (true, marker)
  else
    (false, SaveSeqNum seq)

/-! ## Local status persistence (internal/status.saveStatusReport) -/

/-- A filesystem: a map from paths to file contents. -/
def FileSystem : Type := String → Option String

/-- Writing (or removing, with `none`) one path of a filesystem. -/
def fsWrite (fs : FileSystem) (p : String) (v : Option String) : FileSystem :=
  fun q => if q = p then v else fs q

/-- Source: `os.Rename(src, dst)` — `dst` receives `src`'s content and
`src` is removed. -/
def osRename (fs : FileSystem) (src dst : String) : FileSystem :=
  fsWrite (fsWrite fs dst (fs src)) src none

/-- Source: the file name computed by `saveStatusReport`:
`extName.seqNo.status` for multiconfig extensions, `seqNo.status`
otherwise. -/
def statusFileName (extName : String) (seqNo : Int) : String :=
  let fn := toString seqNo ++ ".status"
  if extName ≠ "" then extName ++ "." ++ fn else fn

/-- The final path `statusFolder/[extName.]seqNo.status` written by
`saveStatusReport` (`filepath.Join` embedded as `/`-concatenation). -/
def statusFilePath (statusFolder extName : String) (seqNo : Int) : String :=
  statusFolder ++ "/" ++ statusFileName extName seqNo

/-- Source: `os.CreateTemp(statusFolder, fn)` creates a fresh file inside
`statusFolder` whose name is the pattern `fn` with a random non-empty
suffix appended; the suffix is made an explicit input. -/
def tmpStatusFilePath (statusFolder extName : String) (seqNo : Int) (tmpSuffix : String) :
    String :=
  statusFolder ++ "/" ++ (statusFileName extName seqNo ++ tmpSuffix)

/-- Source: `saveStatusReport(statusFolder, extName, seqNo, rootStatusJson)`:
create a temporary file in the status folder, write the whole document to
it, rename it over the final path.  Returns the trace of filesystem
states: initial, after temp creation, after the write, after the rename
(the last one being the state the function leaves behind). -/
def saveStatusReport (fs : FileSystem) (statusFolder extName : String) (seqNo : Int)
    (rootStatusJson : String) (tmpSuffix : String) : List FileSystem :=
  let path := statusFilePath statusFolder extName seqNo
  let tmpName := tmpStatusFilePath statusFolder extName seqNo tmpSuffix
  let fs1 := fsWrite fs tmpName (some "")
  let fs2 := fsWrite fs1 tmpName (some rootStatusJson)
  let fs3 := osRename fs2 tmpName path
  [fs, fs1, fs2, fs3]

/-! ## Status document serialization (internal/status.getRootStatusJson) -/

/-- Modelled from the spec: `types.NewStatusReport(statusType, name, msg)`
is not among the sources studied here; per the spec the status document
carries the status kind, the command name and the free-text message. -/
structure StatusReport where
  status : String
  name : String
  msg : String
deriving DecidableEq

/-- Source: `types.NewStatusReport(statusType, c.Name, msg)`. -/
def NewStatusReport (statusType name msg : String) : StatusReport :=
  { status := statusType, name := name, msg := msg }

/-- A JSON string literal, characters of the value between quotes.
Escaping is not modelled; fields are assumed free of characters that Go's
encoding/json would escape. -/
def quoteJson (s : String) : List Char :=
  '"' :: s.data ++ ['"']

/-- Modelled from Go `encoding/json`: compact `json.Marshal` of the status
report, as the list of the body's characters. -/
def marshalStatusReport (r : StatusReport) : List Char :=
  "\x7b\"status\":".data ++ quoteJson r.status ++ ",\"name\":".data ++ quoteJson r.name ++
    ",\"message\":".data ++ quoteJson r.msg ++ "\x7d".data

/-- Modelled from Go `encoding/json`: `json.MarshalIndent(v, "", "\t")` of
the status report — every member on its own line, tab-indented, with a
space after each colon. -/
def marshalIndentStatusReport (r : StatusReport) : List Char :=
  "\x7b\n\t\"status\": ".data ++ quoteJson r.status ++ ",\n\t\"name\": ".data ++
    quoteJson r.name ++ ",\n\t\"message\": ".data ++ quoteJson r.msg ++ "\n\x7d".data

/-- Source: `getRootStatusJson(ctx, statusType, c, msg, indent)` of
internal/status: builds the status report and marshals it, indented or
compact according to `indent`. -/
def getRootStatusJson (statusType name msg : String) (indent : Bool) : List Char :=
  let statusReport := NewStatusReport statusType name msg
  if indent then marshalIndentStatusReport statusReport
  else marshalStatusReport statusReport

/-- Source: `ReportStatusToBlob` builds the body it submits to the remote
reporting endpoint with `indent = false`. -/
def remoteStatusBody (statusType name msg : String) : List Char :=
  getRootStatusJson statusType name msg false

/-- Source: `ReportStatusToLocalFile` builds the body it persists to the
local status file with `indent = true`. -/
def localStatusBody (statusType name msg : String) : List Char :=
  getRootStatusJson statusType name msg true

/-- Erases the whitespace that `MarshalIndent` inserts outside JSON string
literals (newlines, tabs, the space after a colon), leaving string
contents untouched.  The second argument tracks being inside a string
literal. -/
def stripWsOutsideStrings : List Char → Bool → List Char
  | [], _ => []
  | c :: cs, inStr =>
    if c == '"' then c :: stripWsOutsideStrings cs (!inStr)
    else if !inStr && (c == '\n' || c == '\t' || c == ' ') then
      stripWsOutsideStrings cs inStr
    else c :: stripWsOutsideStrings cs inStr

/-! ## Output streaming (internal/commands.appendToBlob) -/

/-- Modelled from the spec: `files.GetFileFromPosition(path, pos)` is not
among the sources studied here; it returns the bytes of the file from the
given position to the end, or an error when the file cannot be read
(`none` models an unreadable file). -/
def GetFileFromPosition (file : Option (List Nat)) (pos : Nat) :
    Except String (List Nat) :=
  match file with
  | none => Except.error "GetFileFromPosition failed"
  | some bs => Except.ok (bs.drop pos)

/-- Source: `appendToBlob(sourceFilePath, appendBlobRef, appendBlobClient,
outputFilePosition, ctx)` of internal/commands.  `configured` embeds
`appendBlobRef != nil || appendBlobClient != nil`; `appendOk` is whether
the remote `AppendBlock` call succeeds when made; `file` is the tailed
capture file.  Returns the new cursor, the returned error, and the block
of bytes handed to `AppendBlock` (empty when no append was attempted). -/
def appendToBlob (configured : Bool) (file : Option (List Nat)) (appendOk : Bool)
    (outputFilePosition : Nat) : Nat × Option String × List Nat :=
  if configured then
    match GetFileFromPosition file outputFilePosition with
    | Except.ok newOutput =>
      if 0 < newOutput.length then
        if appendOk then (outputFilePosition + newOutput.length, none, newOutput)
        else (outputFilePosition, some "AppendToBlob failed", newOutput)
      else (outputFilePosition, none, [])
    | Except.error e => (outputFilePosition, some e, [])
  else (outputFilePosition, none, [])

/-! ## Append blob creation (internal/commands.createOrReplaceAppendBlob and
the sink-setup stage of enable) -/

/-- The outcome of `createOrReplaceAppendBlob`: which credential paths were
attempted and whether the function returned a non-nil error. -/
structure BlobCreateResult where
  sasAttempted : Bool
  miAttempted : Bool
  failed : Bool
deriving DecidableEq

/-- Source: `createOrReplaceAppendBlob(blobUri, sasToken, managedIdentity,
ctx)` of internal/commands.  `sasFails` and `miFails` are whether the
external SAS-credential and managed-identity create-or-replace calls fail
when they are made. -/
def createOrReplaceAppendBlob (blobUri sasToken : String) (sasFails miFails : Bool) :
    BlobCreateResult :=
  if blobUri ≠ "" then
    let sasErr := sasToken != "" && sasFails
    let miAttempted := sasToken == "" || sasErr
    let miErr := miAttempted && miFails
    { sasAttempted := sasToken != ""
      miAttempted := miAttempted
      failed := (sasToken == "" && miErr) || (sasErr && miErr) }
  else
    { sasAttempted := false, miAttempted := false, failed := false }

/-- Modelled from the spec: the closed set of named exit codes of
internal/constants is not among the sources studied here; only the
identity of the blob-create-or-replace code matters below. -/
inductive ExitCode where
  | okay
  | blobCreateOrReplaceFailed
deriving DecidableEq

/-- Source: the output/error sink setup stage of `enable`
(internal/commands): each configured sink URI is created or replaced, the
first failure aborts the command with
`constants.ExitCode_BlobCreateOrReplaceFailed`; `none` means the stage
succeeded and enable proceeds. -/
def enableBlobSetup (outputBlobURI errorBlobURI outSasToken errSasToken : String)
    (outSasFails outMiFails errSasFails errMiFails : Bool) : Option ExitCode :=
  if outputBlobURI != "" &&
      (createOrReplaceAppendBlob outputBlobURI outSasToken outSasFails outMiFails).failed then
    some ExitCode.blobCreateOrReplaceFailed
  else if errorBlobURI != "" &&
      (createOrReplaceAppendBlob errorBlobURI errSasToken errSasFails errMiFails).failed then
    some ExitCode.blobCreateOrReplaceFailed
  else
    none

/-! ## Helper bounds on the retry loop -/

/-- Each strategy is called at most once per unit of remaining fuel. -/
theorem retryLoop_calls_le (d : Downloader) :
    ∀ (fuel n : Nat) (errs : List String) (sleeps : List Nat) (c : Nat),
    (retryLoop d n fuel errs sleeps c).2.2.2 ≤ c + fuel := by
  intro fuel
  induction fuel with
  | zero => intro n errs sleeps c; simp [retryLoop]
  | succ k ih =>
    intro n errs sleeps c
    unfold retryLoop
    cases d n with
    | ok body => simp
    | err status msg =>
      simp only
      split
      · simp
      · split
        · simp
        · split
          · exact le_trans (ih _ _ _ _) (by omega)
          · exact le_trans (ih _ _ _ _) (by omega)

/-- The retry loop sleeps at most `fuel - 1` times: never after the final
attempt of a strategy. -/
theorem retryLoop_sleeps_le (d : Downloader) :
    ∀ (fuel n : Nat) (errs : List String) (sleeps : List Nat) (c : Nat),
    n + fuel = expRetryN →
    (retryLoop d n fuel errs sleeps c).2.2.1.length ≤ sleeps.length + (fuel - 1) := by
  intro fuel
  induction fuel with
  | zero => intro n errs sleeps c h; simp [retryLoop]
  | succ k ih =>
    intro n errs sleeps c h
    unfold retryLoop
    cases d n with
    | ok body => simp
    | err status msg =>
      simp only
      split
      · simp
      · split
        · simp
        · split
          · rename_i hn
            have hk : 1 ≤ k := by
              by_contra hk0
              apply hn
              simp [expRetryN] at h ⊢
              omega
            have := ih (n + 1) (wrapDownloadErrors errs n msg)
              (sleeps ++ [expRetryK * expRetryM ^ n]) (c + 1) (by omega)
            simp at this
            omega
          · have := ih (n + 1) (wrapDownloadErrors errs n msg) sleeps (c + 1) (by omega)
            omega

/-- Every reached strategy is called at most `expRetryN` times and the
engine performs at most two backoff sleeps per reached strategy. -/
theorem withRetriesAux_bounds :
    ∀ (ds : List Downloader) (errs : List String) (sleeps : List Nat) (calls : List Nat),
    sleeps.length ≤ 2 * calls.length →
    (∀ c ∈ calls, c ≤ expRetryN) →
    (∀ c ∈ (WithRetriesAux ds errs sleeps calls).calls, c ≤ expRetryN) ∧
    (WithRetriesAux ds errs sleeps calls).sleeps.length ≤
      2 * (WithRetriesAux ds errs sleeps calls).calls.length := by
  intro ds
  induction ds with
  | nil => intro errs sleeps calls hs hc; exact ⟨hc, hs⟩
  | cons d ds ih =>
    intro errs sleeps calls hs hc
    have hcall := retryLoop_calls_le d expRetryN 0 errs sleeps 0
    have hslp := retryLoop_sleeps_le d expRetryN 0 errs sleeps 0 (by simp)
    unfold WithRetriesAux
    rcases hr : retryLoop d 0 expRetryN errs sleeps 0 with ⟨b, errs2, sleeps2, m⟩
    rw [hr] at hcall hslp
    simp at hcall hslp
    cases b with
    | some body =>
      simp only
      constructor
      · intro c hcmem
        simp at hcmem
        rcases hcmem with hcmem | hcmem
        · exact hc c hcmem
        · exact hcmem ▸ hcall
      · simp [expRetryN] at hslp ⊢
        omega
    | none =>
      simp only
      apply ih
      · simp [expRetryN] at hslp ⊢
        omega
      · intro c hcmem
        simp at hcmem
        rcases hcmem with hcmem | hcmem
        · exact hc c hcmem
        · exact hcmem ▸ hcall

/-! ## Claim theorems for the download engine -/

/-- C2 counterexample: a strategy whose every attempt yields no HTTP status
(status `-1`) is called exactly 3 times by `WithRetries` — not exactly once
as the claim states — and the engine even sleeps 3s and 6s between those
attempts instead of abandoning the strategy immediately. -/
theorem withRetries_noStatus_single_attempt_cex :
    (WithRetries [noStatusDownloader]).calls = [3] ∧
    (WithRetries [noStatusDownloader]).calls ≠ [1] ∧
    (WithRetries [noStatusDownloader]).sleeps = [3, 6] := by decide

/-- C2 (amended): a strategy whose attempts produce no HTTP status at all
(status `-1`) is treated like a transient failure: `WithRetries` retries it
with backoff sleeps of 3s and 6s up to the 3-attempt budget, and only then
advances to the next strategy in the list, carrying the accumulated
error chain along. -/
theorem withRetries_noStatus_transient_fallback (d : Downloader) (ds : List Downloader)
    (m0 m1 m2 : String)
    (h0 : d 0 = .err (-1) m0) (h1 : d 1 = .err (-1) m1) (h2 : d 2 = .err (-1) m2) :
    WithRetries (d :: ds) =
      WithRetriesAux ds [attemptErrorMessage 2 m2, attemptErrorMessage 1 m1, m0] [3, 6] [3] := by
  simp [WithRetries, WithRetriesAux, retryLoop, expRetryN, expRetryK, expRetryM,
    h0, h1, h2, wrapDownloadErrors, isAccessIssueHttpStatusCode, isTransientHttpStatusCode]

/-- C2 witness: the amended statement evaluated on the always-failing
no-status strategy alone. -/
theorem withRetries_noStatus_transient_fallback_witness :
    WithRetries [noStatusDownloader] =
      WithRetriesAux [] [attemptErrorMessage 2 "expected error",
        attemptErrorMessage 1 "expected error", "expected error"] [3, 6] [3] :=
  withRetries_noStatus_transient_fallback noStatusDownloader [] _ _ _ rfl rfl rfl

/-- C3: when the first strategy always yields an access-issue HTTP status
(401, 403, 404 or 409) and the second always yields 200, `WithRetries`
calls the first strategy exactly once and the second exactly once, performs
no backoff sleep, and returns the second strategy's body with no error. -/
theorem withRetries_accessIssue_short_circuit (s : Int) (m b : String) (d1 d2 : Downloader)
    (hs : isAccessIssueHttpStatusCode s = true)
    (h1 : d1 0 = .err s m) (h2 : d2 0 = .ok b) :
    WithRetries [d1, d2] = ⟨some b, none, [], [1, 1]⟩ := by
  simp [WithRetries, WithRetriesAux, retryLoop, expRetryN, h1, h2, hs, wrapDownloadErrors]

/-- C3 witness: a 404 strategy followed by a 200 strategy. -/
theorem withRetries_accessIssue_short_circuit_witness :
    WithRetries [alwaysNotFoundDownloader, alwaysOkDownloader] =
      ⟨some "payload", none, [], [1, 1]⟩ :=
  withRetries_accessIssue_short_circuit 404 "a" "payload"
    alwaysNotFoundDownloader alwaysOkDownloader rfl rfl rfl

/-- C4: a single strategy yielding 429 on its first two attempts and 200 on
the third makes `WithRetries` sleep exactly twice, 3s then 6s, and succeed
on the third attempt; in general every strategy is called at most 3 times
and the engine sleeps at most twice per reached strategy — never after a
strategy's final attempt. -/
theorem withRetries_transient_backoff_schedule (d : Downloader) (b m0 m1 : String)
    (h0 : d 0 = .err 429 m0) (h1 : d 1 = .err 429 m1) (h2 : d 2 = .ok b) :
    WithRetries [d] = ⟨some b, none, [3, 6], [3]⟩ ∧
    ∀ ds : List Downloader,
      (∀ c ∈ (WithRetries ds).calls, c ≤ 3) ∧
      (WithRetries ds).sleeps.length ≤ 2 * (WithRetries ds).calls.length := by
  constructor
  · simp [WithRetries, WithRetriesAux, retryLoop, expRetryN, expRetryK, expRetryM,
      h0, h1, h2, wrapDownloadErrors, isAccessIssueHttpStatusCode,
      isTransientHttpStatusCode, attemptErrorMessage]
  · intro ds
    exact withRetriesAux_bounds ds [] [] [] (by simp) (by simp)

/-- C4 witness: the healing 429-429-200 strategy. -/
theorem withRetries_transient_backoff_schedule_witness :
    WithRetries [healingDownloader] = ⟨some "BODY", none, [3, 6], [3]⟩ :=
  (withRetries_transient_backoff_schedule healingDownloader "BODY" "m0" "m1"
    rfl rfl rfl).1

/-- C8 counterexample: with a 404 strategy followed by an always-429
strategy, the aggregate error chain of `WithRetries` reads most-recent
first: its head is the attempt-3 message of the second strategy and the
very first failure message `"a"` sits last, not first as the claim
states (the first message also carries no `Attempt` prefix). -/
theorem withRetries_error_chain_order_cex :
    (WithRetries [alwaysNotFoundDownloader, alwaysThrottledDownloader]).error =
      some ["Attempt 3: d ", "Attempt 2: c ", "Attempt 1: b ", "a"] ∧
    ((WithRetries [alwaysNotFoundDownloader, alwaysThrottledDownloader]).error.getD
      []).head? ≠ some "a" ∧
    ((WithRetries [alwaysNotFoundDownloader, alwaysThrottledDownloader]).error.getD
      []).getLast? = some "a" ∧
    (WithRetries [alwaysNotFoundDownloader, alwaysThrottledDownloader]).body = none := by
  decide

/-- The retry loop succeeds exactly when its failure companion records a
body, and the error chain it accumulates is the fold of the wrap step over
the chronological failed attempts it records. -/
theorem retryLoop_failures_eq (d : Downloader) :
    ∀ (fuel n : Nat) (errs : List String) (sleeps : List Nat) (c : Nat),
    (retryLoop d n fuel errs sleeps c).1 = (retryLoopFailures d n fuel).1 ∧
    (retryLoop d n fuel errs sleeps c).2.1 =
      List.foldl (fun e p => wrapDownloadErrors e p.1 p.2) errs
        (retryLoopFailures d n fuel).2 := by
  intro fuel
  induction fuel with
  | zero => intro n errs sleeps c; simp [retryLoop, retryLoopFailures]
  | succ k ih =>
    intro n errs sleeps c
    unfold retryLoop retryLoopFailures
    cases d n with
    | ok body => simp
    | err status msg =>
      simp only
      split
      · simp
      · split
        · simp
        · split
          · simpa using ih n.succ (wrapDownloadErrors errs n msg)
              (sleeps ++ [expRetryK * expRetryM ^ n]) (c + 1)
          · simpa using ih n.succ (wrapDownloadErrors errs n msg) sleeps (c + 1)

/-- Folding the wrap step over failed attempts starting from a non-empty
chain prepends the prefixed messages in reverse chronological order. -/
theorem foldl_wrap_of_ne_nil (fs : List (Nat × String)) :
    ∀ errs : List String, errs ≠ [] →
    List.foldl (fun e p => wrapDownloadErrors e p.1 p.2) errs fs =
      (fs.map (fun p => attemptErrorMessage p.1 p.2)).reverse ++ errs := by
  induction fs with
  | nil => intro errs h; simp
  | cons p fs ih =>
    intro errs h
    rcases errs with _ | ⟨e, errs⟩
    · exact absurd rfl h
    · rw [List.foldl_cons]
      have hstep : wrapDownloadErrors (e :: errs) p.1 p.2 =
          attemptErrorMessage p.1 p.2 :: e :: errs := rfl
      rw [hstep, ih (attemptErrorMessage p.1 p.2 :: e :: errs) (by simp)]
      simp

/-- When no strategy succeeds, the error of `WithRetriesAux` is the fold of
the wrap step over all the run's chronological failed attempts. -/
theorem withRetriesAux_error_eq :
    ∀ (ds : List Downloader) (errs : List String) (sleeps : List Nat) (calls : List Nat),
    (WithRetriesAux ds errs sleeps calls).body = none →
    (WithRetriesAux ds errs sleeps calls).error =
      (match List.foldl (fun e p => wrapDownloadErrors e p.1 p.2) errs (runFailures ds) with
       | [] => none
       | x :: xs => some (x :: xs)) := by
  intro ds
  induction ds with
  | nil =>
    intro errs sleeps calls h
    simp only [WithRetriesAux, runFailures, List.foldl_nil]
    rcases errs with _ | ⟨e, errs⟩ <;> rfl
  | cons d ds ih =>
    intro errs sleeps calls h
    have hfe := retryLoop_failures_eq d expRetryN 0 errs sleeps 0
    unfold WithRetriesAux at h ⊢
    unfold runFailures
    rcases hr : retryLoop d 0 expRetryN errs sleeps 0 with ⟨b, errs2, sleeps2, m⟩
    rw [hr] at h hfe
    rcases hq : retryLoopFailures d 0 expRetryN with ⟨b2, fs⟩
    rw [hq] at hfe
    simp only at hfe
    rcases hfe with ⟨hb, he⟩
    cases b with
    | some body => simp at h
    | none =>
      cases b2 with
      | some body2 => simp at hb
      | none =>
        simp only
        rw [ih errs2 sleeps2 (calls ++ [m]) (by simpa using h)]
        rw [he, List.foldl_append]

/-- C8 (amended): whenever every strategy of a run is exhausted or
abandoned — `WithRetries` returns a nil body — the aggregate error chains
the run's per-attempt messages in reverse chronological order: each later
failure wraps the existing aggregate with `Attempt n: msg` (n the attempt
index within its strategy) as the outermost message, while the run's first
failure message is stored without any prefix and comes last; with no
failed attempt at all the error is nil. -/
theorem withRetries_error_chain_reversed (ds : List Downloader)
    (h : (WithRetries ds).body = none) :
    (WithRetries ds).error =
      (match runFailures ds with
       | [] => none
       | (_, m0) :: rest =>
         some ((rest.map (fun p => attemptErrorMessage p.1 p.2)).reverse ++ [m0])) := by
  rw [WithRetries] at h ⊢
  rw [withRetriesAux_error_eq ds [] [] [] h]
  rcases hf : runFailures ds with _ | ⟨⟨n0, m0⟩, rest⟩
  · rfl
  · rw [List.foldl_cons]
    have hstep : wrapDownloadErrors [] n0 m0 = [m0] := rfl
    rw [hstep, foldl_wrap_of_ne_nil rest [m0] (by simp)]
    rcases he : (rest.map (fun p => attemptErrorMessage p.1 p.2)).reverse ++ [m0] with _ | ⟨x, xs⟩
    · simp at he
    · exact congrArg some he.symm

/-- C8 witness: the amended statement on the concrete 404 strategy
followed by the always-429 strategy, fully evaluated. -/
theorem withRetries_error_chain_reversed_witness :
    (WithRetries [alwaysNotFoundDownloader, alwaysThrottledDownloader]).error =
      some ["Attempt 3: d ", "Attempt 2: c ", "Attempt 1: b ", "a"] :=
  (withRetries_error_chain_reversed
    [alwaysNotFoundDownloader, alwaysThrottledDownloader] (by decide)).trans (by decide)

/-- C10: for the empty strategy list `WithRetries` returns a nil body and a
nil error — a success-shaped result with no usable body. -/
theorem withRetries_empty_strategy_list :
    WithRetries [] = ⟨none, none, [], []⟩ := rfl

/-! ## Claim theorems for the sequence guard -/

/-- C1: with a persisted version `v2`, `checkAndSaveSeqNum` on any candidate
`v1 ≤ v2` exits (`shouldExit = true`) leaving the marker at `v2`; on any
strictly greater candidate, and when no version is persisted, it saves the
candidate and proceeds (`shouldExit = false`). -/
theorem checkAndSaveSeqNum_monotonic (v1 v2 : Int) :
    (v1 ≤ v2 → checkAndSaveSeqNum v1 (some v2) = (true, some v2)) ∧
    (v2 < v1 → checkAndSaveSeqNum v1 (some v2) = (false, some v1)) ∧
    checkAndSaveSeqNum v1 none = (false, some v1) := by
  refine ⟨fun h => ?_, fun h => ?_, ?_⟩ <;>
    simp [checkAndSaveSeqNum, IsSmallerThan, SaveSeqNum] <;> omega

/-- C1 witness: candidate 3 against persisted 5 exits, candidate 7 against
persisted 2 advances, candidate 4 against an absent marker advances. -/
theorem checkAndSaveSeqNum_monotonic_witness :
    checkAndSaveSeqNum 3 (some 5) = (true, some 5) ∧
    checkAndSaveSeqNum 7 (some 2) = (false, some 7) ∧
    checkAndSaveSeqNum 4 none = (false, some 4) :=
  ⟨(checkAndSaveSeqNum_monotonic 3 5).1 (by norm_num),
   (checkAndSaveSeqNum_monotonic 7 2).2.1 (by norm_num),
   (checkAndSaveSeqNum_monotonic 4 0).2.2⟩

/-! ## Claim theorems for local status persistence -/

/-- Appending a non-empty string to a string changes it. -/
theorem append_ne_of_ne_empty (a b : String) (h : b ≠ "") : a ++ b ≠ a := by
  intro he
  apply h
  apply String.ext
  have hd := congrArg String.data he
  rw [String.data_append] at hd
  have hlen := congrArg List.length hd
  simp only [List.length_append, Nat.add_right_eq_self] at hlen
  exact List.eq_nil_of_length_eq_zero hlen

/-- The temporary file and the final status file are distinct paths as
long as the random suffix is non-empty. -/
theorem tmp_ne_statusFilePath (statusFolder extName sfx : String) (seqNo : Int)
    (h : sfx ≠ "") :
    tmpStatusFilePath statusFolder extName seqNo sfx ≠
      statusFilePath statusFolder extName seqNo := by
  have heq : tmpStatusFilePath statusFolder extName seqNo sfx =
      statusFilePath statusFolder extName seqNo ++ sfx := by
    simp [tmpStatusFilePath, statusFilePath, String.append_assoc]
  rw [heq]
  exact append_ne_of_ne_empty _ _ h

/-- C5: `saveStatusReport` creates its temporary file inside the status
folder itself, leaves the final path `statusFolder/[extName.]seqNo.status`
untouched through the temp-create and write steps, and only the concluding
rename makes the final path hold the complete document; no path other than
the temporary file and the final path is ever touched.  The hypothesis is
that `os.CreateTemp`'s random suffix is non-empty. -/
theorem saveStatusReport_atomic (fs : FileSystem) (statusFolder extName json sfx : String)
    (seqNo : Int) (hsfx : sfx ≠ "") :
    ((saveStatusReport fs statusFolder extName seqNo json sfx).map
        (fun g => g (statusFilePath statusFolder extName seqNo))) =
      [fs (statusFilePath statusFolder extName seqNo),
       fs (statusFilePath statusFolder extName seqNo),
       fs (statusFilePath statusFolder extName seqNo),
       some json] ∧
    statusFilePath statusFolder extName seqNo =
      statusFolder ++ "/" ++
        (if extName = "" then toString seqNo ++ ".status"
         else extName ++ "." ++ toString seqNo ++ ".status") ∧
    tmpStatusFilePath statusFolder extName seqNo sfx =
      statusFolder ++ "/" ++ (statusFileName extName seqNo ++ sfx) ∧
    (∀ q, q ≠ tmpStatusFilePath statusFolder extName seqNo sfx →
      q ≠ statusFilePath statusFolder extName seqNo →
      ∀ g ∈ saveStatusReport fs statusFolder extName seqNo json sfx, g q = fs q) := by
  have hne := tmp_ne_statusFilePath statusFolder extName sfx seqNo hsfx
  refine ⟨?_, ?_, ?_, ?_⟩
  · simp [saveStatusReport, fsWrite, osRename, hne, Ne.symm hne]
  · simp [statusFilePath, statusFileName]
    split <;> simp_all [String.append_assoc]
  · rfl
  · intro q hq1 hq2
    intro g hg
    simp only [saveStatusReport, List.mem_cons, List.mem_singleton] at hg
    rcases hg with rfl | rfl | rfl | rfl | h
    · rfl
    · simp [fsWrite, hq1]
    · simp [fsWrite, hq1]
    · simp [osRename, fsWrite, hq1, hq2]
    · cases h

/-- C5 witness: on an empty filesystem, the traced states of the final
path read none, none, none, then the full document. -/
theorem saveStatusReport_atomic_witness :
    ((saveStatusReport (fun _ => none) "/var/lib/status" "ext" 5 "DOC" "123").map
        (fun g => g (statusFilePath "/var/lib/status" "ext" 5))) =
      [none, none, none, some "DOC"] :=
  (saveStatusReport_atomic (fun _ => none) "/var/lib/status" "ext" "DOC" "123" 5
    (by decide)).1

/-! ## Claim theorems for status document serialization -/

/-- Inside a JSON string literal, stripping insignificant whitespace keeps
every quote-free character. -/
theorem strip_string_seg (l r : List Char) (h : ∀ c ∈ l, c ≠ '"') :
    stripWsOutsideStrings (l ++ r) true = l ++ stripWsOutsideStrings r true := by
  induction l with
  | nil => rfl
  | cons c cs ih =>
    have hc : (c == '"') = false := by
      simp only [beq_eq_false_iff_ne, ne_eq]
      exact h c (by simp)
    simp only [List.cons_append, stripWsOutsideStrings, hc, Bool.not_true, Bool.false_and,
      if_false, Bool.false_eq_true, if_neg]
    exact congrArg (List.cons c) (ih fun c hc => h c (by simp [hc]))

/-- Erasing the indentation whitespace from the indented status body gives
exactly the compact status body. -/
theorem strip_local_eq_remote (st nm ms : String)
    (h1 : ∀ c ∈ st.data, c ≠ '"') (h2 : ∀ c ∈ nm.data, c ≠ '"')
    (h3 : ∀ c ∈ ms.data, c ≠ '"') :
    stripWsOutsideStrings (localStatusBody st nm ms) false = remoteStatusBody st nm ms := by
  have e1 := fun r => strip_string_seg st.data r h1
  have e2 := fun r => strip_string_seg nm.data r h2
  have e3 := fun r => strip_string_seg ms.data r h3
  simp [localStatusBody, remoteStatusBody, getRootStatusJson, marshalIndentStatusReport,
    marshalStatusReport, NewStatusReport, quoteJson, stripWsOutsideStrings, e1, e2, e3]

/-- The indented and compact bodies always differ: character 1 is a
newline in one and a quote in the other. -/
theorem localStatusBody_ne_remoteStatusBody (st nm ms : String) :
    localStatusBody st nm ms ≠ remoteStatusBody st nm ms := by
  intro h
  have h2 := congrArg (fun l => l.take 2) h
  simp [localStatusBody, remoteStatusBody, getRootStatusJson, marshalIndentStatusReport,
    marshalStatusReport, NewStatusReport, quoteJson] at h2

/-- C9 counterexample: for a concrete status report the body persisted to
the local status file is not byte-for-byte identical to the body submitted
to the remote reporting endpoint. -/
theorem statusBody_not_identical_cex :
    localStatusBody "Success" "Enable" "done" ≠ remoteStatusBody "Success" "Enable" "done" := by
  decide

/-- C9 (amended): the local file and the remote submission serialize the
same status report value built from the same status type, command name and
message — the local body is its tab-indented rendering, the remote body its
compact rendering, so the two encode the same document and erasing the
indentation whitespace outside string literals from the local body yields
exactly the remote body — but the two bodies are never byte-for-byte
identical.  Fields are assumed quote-free (escaping is not modelled). -/
theorem getRootStatusJson_same_document (st nm ms : String)
    (h1 : ∀ c ∈ st.data, c ≠ '"') (h2 : ∀ c ∈ nm.data, c ≠ '"')
    (h3 : ∀ c ∈ ms.data, c ≠ '"') :
    localStatusBody st nm ms = marshalIndentStatusReport (NewStatusReport st nm ms) ∧
    remoteStatusBody st nm ms = marshalStatusReport (NewStatusReport st nm ms) ∧
    stripWsOutsideStrings (localStatusBody st nm ms) false = remoteStatusBody st nm ms ∧
    localStatusBody st nm ms ≠ remoteStatusBody st nm ms :=
  ⟨rfl, rfl, strip_local_eq_remote st nm ms h1 h2 h3,
   localStatusBody_ne_remoteStatusBody st nm ms⟩

/-- C9 witness: the amended statement on a concrete report. -/
theorem getRootStatusJson_same_document_witness :
    localStatusBody "Success" "Enable" "ok" =
      marshalIndentStatusReport (NewStatusReport "Success" "Enable" "ok") ∧
    remoteStatusBody "Success" "Enable" "ok" =
      marshalStatusReport (NewStatusReport "Success" "Enable" "ok") ∧
    stripWsOutsideStrings (localStatusBody "Success" "Enable" "ok") false =
      remoteStatusBody "Success" "Enable" "ok" ∧
    localStatusBody "Success" "Enable" "ok" ≠ remoteStatusBody "Success" "Enable" "ok" :=
  getRootStatusJson_same_document "Success" "Enable" "ok"
    (by decide) (by decide) (by decide)

/-! ## Claim theorems for output streaming -/

/-- C6: with a configured sink, a successful append advances the cursor by
exactly the number of bytes read from the source file starting at the
cursor; a failed append, an unreadable file, an unconfigured sink, or the
absence of new bytes leave the cursor unchanged; the cursor never
decreases; and any block handed to the remote append consists exactly of
the file bytes from the cursor on — bytes below the cursor are never sent
again. -/
theorem appendToBlob_cursor (bs : List Nat) (pos : Nat) (file : Option (List Nat))
    (configured appendOk : Bool) :
    (appendToBlob true (some bs) true pos).1 = pos + (bs.drop pos).length ∧
    (appendToBlob true (some bs) false pos).1 = pos ∧
    (appendToBlob true none appendOk pos).1 = pos ∧
    (appendToBlob false file appendOk pos).1 = pos ∧
    pos ≤ (appendToBlob configured file appendOk pos).1 ∧
    ((appendToBlob configured (some bs) appendOk pos).2.2 = [] ∨
      (appendToBlob configured (some bs) appendOk pos).2.2 = bs.drop pos) := by
  refine ⟨?_, ?_, ?_, ?_, ?_, ?_⟩
  · simp only [appendToBlob, GetFileFromPosition, if_true]
    split <;> simp_all
  · simp only [appendToBlob, GetFileFromPosition, if_true]
    split <;> simp_all
  · simp [appendToBlob, GetFileFromPosition]
  · simp [appendToBlob]
  · cases configured <;> cases file <;> cases appendOk <;>
      simp [appendToBlob, GetFileFromPosition] <;> split <;> simp
  · cases configured <;> cases appendOk <;>
      simp [appendToBlob, GetFileFromPosition] <;> split <;> simp

/-! ## Claim theorems for append blob creation -/

/-- `createOrReplaceAppendBlob` returns an error exactly when every
applicable credential path fails, tries SAS exactly when a token is
present, and tries managed identity exactly when there is no token or the
SAS attempt failed. -/
theorem createOrReplaceAppendBlob_failed_iff (u s : String) (sf mf : Bool) :
    ((createOrReplaceAppendBlob u s sf mf).failed = true ↔
      (u ≠ "" ∧ (s = "" ∨ sf = true) ∧ mf = true)) ∧
    ((createOrReplaceAppendBlob u s sf mf).sasAttempted = true ↔ (u ≠ "" ∧ s ≠ "")) ∧
    ((createOrReplaceAppendBlob u s sf mf).miAttempted = true ↔
      (u ≠ "" ∧ (s = "" ∨ sf = true))) := by
  by_cases hu : u = "" <;> by_cases hs : s = "" <;> cases sf <;> cases mf <;>
    simp [createOrReplaceAppendBlob, hu, hs]

/-- The sink-setup stage of enable returns the blob-create-or-replace exit
code exactly when a configured sink's creation fails for every applicable
credential path. -/
theorem enableBlobSetup_failure_iff (ou eu os es : String) (osf omf esf emf : Bool) :
    enableBlobSetup ou eu os es osf omf esf emf = some ExitCode.blobCreateOrReplaceFailed ↔
      ((ou ≠ "" ∧ (os = "" ∨ osf = true) ∧ omf = true) ∨
       (eu ≠ "" ∧ (es = "" ∨ esf = true) ∧ emf = true)) := by
  have key : ∀ (u s : String) (sf mf : Bool),
      (createOrReplaceAppendBlob u s sf mf).failed = true ↔
      (u ≠ "" ∧ (s = "" ∨ sf = true) ∧ mf = true) := by
    intro u s sf mf
    by_cases hu : u = "" <;> by_cases hs : s = "" <;> cases sf <;> cases mf <;>
      simp [createOrReplaceAppendBlob, hu, hs]
  unfold enableBlobSetup
  split
  · rename_i hc
    simp only [Bool.and_eq_true, bne_iff_ne, ne_eq] at hc
    simp [key] at hc
    simp [hc]
  · rename_i hc
    split
    · rename_i hc2
      simp only [Bool.and_eq_true, bne_iff_ne, ne_eq] at hc2
      simp [key] at hc2
      simp [hc2]
    · rename_i hc2
      simp only [Bool.and_eq_true, bne_iff_ne, ne_eq, not_and] at hc hc2
      simp only [key] at hc hc2
      constructor
      · intro h; cases h
      · intro h
        exfalso
        rcases h with h | h
        · rcases h with ⟨h1, h2, h3⟩
          exact hc h1 ⟨h1, h2, h3⟩
        · rcases h with ⟨h1, h2, h3⟩
          exact hc2 h1 ⟨h1, h2, h3⟩

/-- C7: for a configured sink URI, blob creation attempts the SAS path
exactly when a SAS token is present, falls back to the managed-identity
path exactly when there is no token or the SAS attempt failed, fails
exactly when every applicable credential path fails, and the enable
command exits with the blob-create-or-replace code exactly when creation
fails for a configured output or error sink. -/
theorem enable_blob_credential_fallback (u s : String) (sf mf : Bool)
    (ou eu os es : String) (osf omf esf emf : Bool) :
    ((createOrReplaceAppendBlob u s sf mf).sasAttempted = true ↔ (u ≠ "" ∧ s ≠ "")) ∧
    ((createOrReplaceAppendBlob u s sf mf).miAttempted = true ↔
      (u ≠ "" ∧ (s = "" ∨ sf = true))) ∧
    ((createOrReplaceAppendBlob u s sf mf).failed = true ↔
      (u ≠ "" ∧ (s = "" ∨ sf = true) ∧ mf = true)) ∧
    (enableBlobSetup ou eu os es osf omf esf emf = some ExitCode.blobCreateOrReplaceFailed ↔
      ((ou ≠ "" ∧ (os = "" ∨ osf = true) ∧ omf = true) ∨
       (eu ≠ "" ∧ (es = "" ∨ esf = true) ∧ emf = true))) :=
  ⟨(createOrReplaceAppendBlob_failed_iff u s sf mf).2.1,
   (createOrReplaceAppendBlob_failed_iff u s sf mf).2.2,
   (createOrReplaceAppendBlob_failed_iff u s sf mf).1,
   enableBlobSetup_failure_iff ou eu os es osf omf esf emf⟩

end RunCommandHandler
